import Mathlib

/-!
Verification development for the flowly diagram editor's interaction core:
the canvas store (`useCanvasStore.ts`), the geometry utilities, and the
viewport transform, shallowly embedded over exact rational arithmetic.
JavaScript numbers are modelled by `ℚ`; the `uuidv4()` calls are modelled
by passing the fresh id as an explicit argument.
-/

namespace Flowly

/-- 2D point (`Point` in `types.ts`). -/
structure Point where
  x : ℚ
  y : ℚ
  deriving DecidableEq, Repr

/-- Node size (the inline `{width, height}` record in `types.ts`). -/
structure Size where
  width : ℚ
  height : ℚ
  deriving DecidableEq, Repr

/-- `NodeType` in `types.ts`. -/
inductive NodeType where
  | rectangle
  | ellipse
  | diamond
  | text
  deriving DecidableEq, Repr

/-- `Node` in `types.ts` (the transient optional `selected?`/`dragging?`
flags are never read or written by the store and are omitted). -/
structure Node where
  id : String
  type : NodeType
  position : Point
  size : Size
  text : String
  fill : String
  stroke : String
  strokeWidth : ℚ
  deriving DecidableEq, Repr

/-- `Edge` in `types.ts` (again without the unused `selected?` flag). -/
structure Edge where
  id : String
  sourceNodeId : String
  targetNodeId : String
  sourceAnchor : Point
  targetAnchor : Point
  deriving DecidableEq, Repr

/-- `ViewportState` in `types.ts`. -/
structure ViewportState where
  x : ℚ
  y : ℚ
  scale : ℚ
  deriving DecidableEq, Repr

/-- The `tool` union type of the store. -/
inductive Tool where
  | select
  | rectangle
  | ellipse
  | diamond
  | text
  | line
  deriving DecidableEq, Repr

/-- The selection box record (`start`/`end`/`active`); `end` is a Lean
keyword, so the field is named `endPoint`. -/
structure SelectionBox where
  start : Point
  endPoint : Point
  active : Bool
  deriving DecidableEq, Repr

/-- `HistoryState` in `types.ts`: the snapshot of diagram content. -/
structure HistoryState where
  nodes : List Node
  edges : List Edge
  viewport : ViewportState
  deriving DecidableEq, Repr

/-- The full store state (`CanvasState` plus the history fields kept on the
zustand store). `historyIndex` starts at `-1`, hence `Int`. -/
structure CanvasState where
  nodes : List Node
  edges : List Edge
  selectedNodes : List String
  selectedEdges : List String
  viewport : ViewportState
  tool : Tool
  isConnecting : Bool
  connectionSource : Option String
  history : List HistoryState
  historyIndex : Int
  isDragging : Bool
  isPanning : Bool
  selectionBox : Option SelectionBox
  deriving DecidableEq, Repr

def DEFAULT_NODE_SIZE : Size := ⟨120, 80⟩

def DEFAULT_VIEWPORT : ViewportState := ⟨0, 0, 1⟩

/-- The store's initial state. -/
def initialState : CanvasState :=
  { nodes := []
    edges := []
    selectedNodes := []
    selectedEdges := []
    viewport := DEFAULT_VIEWPORT
    tool := Tool.select
    isConnecting := false
    connectionSource := none
    history := []
    historyIndex := -1
    isDragging := false
    isPanning := false
    selectionBox := none }

/-- `Partial<Node>` as passed to `updateNode`: each field optionally
overridden, object-spread (`{...node, ...updates}`) semantics. -/
structure NodeUpdates where
  id : Option String := none
  type : Option NodeType := none
  position : Option Point := none
  size : Option Size := none
  text : Option String := none
  fill : Option String := none
  stroke : Option String := none
  strokeWidth : Option ℚ := none
  deriving DecidableEq, Repr

/-- `{...node, ...updates}`. -/
def applyNodeUpdates (n : Node) (u : NodeUpdates) : Node :=
  { id := u.id.getD n.id
    type := u.type.getD n.type
    position := u.position.getD n.position
    size := u.size.getD n.size
    text := u.text.getD n.text
    fill := u.fill.getD n.fill
    stroke := u.stroke.getD n.stroke
    strokeWidth := u.strokeWidth.getD n.strokeWidth }

/-- The diagram content that `saveHistory` snapshots: nodes, edges,
viewport. -/
def contentOf (s : CanvasState) : HistoryState :=
  ⟨s.nodes, s.edges, s.viewport⟩

/-- The history-list computation inside `saveHistory`: truncate the redo
future (`history.slice(0, historyIndex + 1)`), push the snapshot, evict
the oldest entry when the 50-entry capacity is exceeded (`shift()`). -/
def pushSnap (history : List HistoryState) (historyIndex : Int)
    (snap : HistoryState) : List HistoryState :=
  if 50 < (history.take (historyIndex + 1).toNat ++ [snap]).length
  then (history.take (historyIndex + 1).toNat ++ [snap]).tail
  else history.take (historyIndex + 1).toNat ++ [snap]

/-- `saveHistory`: truncate the redo future, append a snapshot of the
current content, evict the oldest entry past 50, move the index to the
last entry. -/
def saveHistory (s : CanvasState) : CanvasState :=
  let newHistory := pushSnap s.history s.historyIndex (contentOf s)
  { s with history := newHistory, historyIndex := (newHistory.length : Int) - 1 }

/-- `undo`: a no-op unless `historyIndex > 0`; otherwise restores the
previous snapshot and clears the selection. The `none` branch of the
lookup is unreachable in states the store produces (there the JS code
would throw on `undefined`). -/
def undo (s : CanvasState) : CanvasState :=
  if 0 < s.historyIndex then
    match s.history[(s.historyIndex - 1).toNat]? with
    | some prev =>
        { s with nodes := prev.nodes, edges := prev.edges, viewport := prev.viewport,
                 historyIndex := s.historyIndex - 1,
                 selectedNodes := [], selectedEdges := [] }
    | none => s
  else s

/-- `redo`: a no-op unless the index is strictly before the last entry. -/
def redo (s : CanvasState) : CanvasState :=
  if s.historyIndex < (s.history.length : Int) - 1 then
    match s.history[(s.historyIndex + 1).toNat]? with
    | some next =>
        { s with nodes := next.nodes, edges := next.edges, viewport := next.viewport,
                 historyIndex := s.historyIndex + 1,
                 selectedNodes := [], selectedEdges := [] }
    | none => s
  else s

/-- `addNode`; the fresh uuid is passed in as `newId`. -/
def addNode (s : CanvasState) (newId : String) (type : NodeType) (position : Point) :
    CanvasState :=
  let node : Node :=
    { id := newId, type := type, position := position, size := DEFAULT_NODE_SIZE,
      text := "New Node", fill := "#ffffff", stroke := "#666666", strokeWidth := 2 }
  saveHistory { s with nodes := s.nodes ++ [node], selectedNodes := [node.id],
                       selectedEdges := [] }

/-- `updateNode`: merge the partial update into every node with the given
id; no history commit, no anchor recomputation, no size clamping. -/
def updateNode (s : CanvasState) (id : String) (updates : NodeUpdates) : CanvasState :=
  { s with nodes := s.nodes.map (fun node =>
      if node.id == id then applyNodeUpdates node updates else node) }

/-- `deleteNode`: drop the node, its incident edges, and its id from the
node selection, then commit history (unconditionally). -/
def deleteNode (s : CanvasState) (id : String) : CanvasState :=
  saveHistory
    { s with
      nodes := s.nodes.filter (fun node => node.id != id)
      edges := s.edges.filter (fun edge =>
        edge.sourceNodeId != id && edge.targetNodeId != id)
      selectedNodes := s.selectedNodes.filter (fun nodeId => nodeId != id) }

/-- `selectNode`. -/
def selectNode (s : CanvasState) (id : String) (multiSelect : Bool) : CanvasState :=
  let isSelected := s.selectedNodes.contains id
  if multiSelect then
    { s with
      selectedNodes :=
        if isSelected then s.selectedNodes.filter (fun nodeId => nodeId != id)
        else s.selectedNodes ++ [id]
      selectedEdges := [] }
  else
    { s with selectedNodes := if isSelected then [] else [id], selectedEdges := [] }

/-- `selectNodes`. -/
def selectNodes (s : CanvasState) (ids : List String) : CanvasState :=
  { s with selectedNodes := ids, selectedEdges := [] }

/-- `clearSelection`. -/
def clearSelection (s : CanvasState) : CanvasState :=
  { s with selectedNodes := [], selectedEdges := [] }

/-- `deleteSelected`. -/
def deleteSelected (s : CanvasState) : CanvasState :=
  saveHistory
    { s with
      nodes := s.nodes.filter (fun node => !(s.selectedNodes.contains node.id))
      edges := s.edges.filter (fun edge =>
        !(s.selectedEdges.contains edge.id) &&
        !(s.selectedNodes.contains edge.sourceNodeId) &&
        !(s.selectedNodes.contains edge.targetNodeId))
      selectedNodes := []
      selectedEdges := [] }

/-- The duplicate-connection test inside `addEdge`: some existing edge
joins the unordered pair. -/
def connectsPair (sourceNodeId targetNodeId : String) (edge : Edge) : Bool :=
  (edge.sourceNodeId == sourceNodeId && edge.targetNodeId == targetNodeId) ||
  (edge.sourceNodeId == targetNodeId && edge.targetNodeId == sourceNodeId)

/-- `addEdge`: rejects a missing endpoint or an existing unordered
connection (there is no `sourceNodeId ≠ targetNodeId` check); anchors are
set to the node centers (the source comments "center of nodes for now");
on success it leaves connecting mode, reverts the tool and commits. -/
def addEdge (s : CanvasState) (newId sourceNodeId targetNodeId : String) : CanvasState :=
  match s.nodes.find? (fun n => n.id == sourceNodeId),
        s.nodes.find? (fun n => n.id == targetNodeId) with
  | some sourceNode, some targetNode =>
    if (s.edges.find? (connectsPair sourceNodeId targetNodeId)).isSome then s
    else
      let sourceAnchor : Point :=
        ⟨sourceNode.position.x + sourceNode.size.width / 2,
         sourceNode.position.y + sourceNode.size.height / 2⟩
      let targetAnchor : Point :=
        ⟨targetNode.position.x + targetNode.size.width / 2,
         targetNode.position.y + targetNode.size.height / 2⟩
      let edge : Edge := ⟨newId, sourceNodeId, targetNodeId, sourceAnchor, targetAnchor⟩
      saveHistory
        { s with edges := s.edges ++ [edge], isConnecting := false,
                 connectionSource := none, tool := Tool.select }
  | _, _ => s

/-- `deleteEdge`. -/
def deleteEdge (s : CanvasState) (id : String) : CanvasState :=
  saveHistory
    { s with
      edges := s.edges.filter (fun edge => edge.id != id)
      selectedEdges := s.selectedEdges.filter (fun edgeId => edgeId != id) }

/-- `updateEdgeAnchors`. -/
def updateEdgeAnchors (s : CanvasState) (edgeId : String)
    (sourceAnchor targetAnchor : Point) : CanvasState :=
  { s with edges := s.edges.map (fun edge =>
      if edge.id == edgeId then
        { edge with sourceAnchor := sourceAnchor, targetAnchor := targetAnchor }
      else edge) }

/-- `zoom`: clamp the new scale into [0.1, 3] and shift the offset by the
pivot times the scale difference. -/
def zoom (s : CanvasState) (delta : ℚ) (center : Point) : CanvasState :=
  let newScale := max (1/10) (min 3 (s.viewport.scale + delta))
  let scaleDiff := newScale - s.viewport.scale
  { s with viewport :=
      ⟨s.viewport.x - center.x * scaleDiff, s.viewport.y - center.y * scaleDiff, newScale⟩ }

/-- `pan`: add the screen-space delta to the offset. -/
def pan (s : CanvasState) (delta : Point) : CanvasState :=
  { s with viewport :=
      { s.viewport with x := s.viewport.x + delta.x, y := s.viewport.y + delta.y } }

/-- `setTool`: any tool other than `line` also clears connecting state. -/
def setTool (s : CanvasState) (tool : Tool) : CanvasState :=
  if tool == Tool.line then { s with tool := tool }
  else { s with tool := tool, isConnecting := false, connectionSource := none }

/-- `startConnection`. -/
def startConnection (s : CanvasState) (nodeId : String) : CanvasState :=
  { s with isConnecting := true, connectionSource := some nodeId, tool := Tool.line }

/-- `endConnection`: attempt `addEdge` when a source is recorded and the
node differs from it, then unconditionally clear the connecting state and
revert the tool. The fresh edge uuid is passed in as `newId`. -/
def endConnection (s : CanvasState) (newId nodeId : String) : CanvasState :=
  let s1 :=
    match s.connectionSource with
    | some src => if src != nodeId then addEdge s newId src nodeId else s
    | none => s
  { s1 with isConnecting := false, connectionSource := none, tool := Tool.select }

/-- `cancelConnection`. -/
def cancelConnection (s : CanvasState) : CanvasState :=
  { s with isConnecting := false, connectionSource := none, tool := Tool.select }

/-- `clear`. -/
def clear (s : CanvasState) : CanvasState :=
  saveHistory
    { s with nodes := [], edges := [], selectedNodes := [], selectedEdges := [],
             viewport := DEFAULT_VIEWPORT }

/-! ## Geometry engine (the geometry utility module) -/

/-- `getNodeCenter`. -/
def getNodeCenter (node : Node) : Point :=
  ⟨node.position.x + node.size.width / 2, node.position.y + node.size.height / 2⟩

/-- Node bounding box (`getNodeBounds`). -/
structure Bounds where
  left : ℚ
  top : ℚ
  right : ℚ
  bottom : ℚ
  deriving DecidableEq, Repr

/-- `getNodeBounds`. -/
def getNodeBounds (node : Node) : Bounds :=
  ⟨node.position.x, node.position.y,
   node.position.x + node.size.width, node.position.y + node.size.height⟩

/-- `getRectangleIntersection`: the boundary point of an axis-aligned box
on the ray from the center towards `externalPoint`. The source compares
`|dy/dx|` against `halfHeight/halfWidth` in floating point; when `dx = 0`
the quotient is infinite and the comparison is false, so the top/bottom
branch is taken — modelled here by the explicit `dx ≠ 0` guard. -/
def getRectangleIntersection (node : Node) (externalPoint : Point) : Point :=
  let center := getNodeCenter node
  let bounds := getNodeBounds node
  let dx := externalPoint.x - center.x
  let dy := externalPoint.y - center.y
  let halfWidth := node.size.width / 2
  let halfHeight := node.size.height / 2
  if dx ≠ 0 ∧ |dy / dx| ≤ halfHeight / halfWidth then
    ⟨if 0 < dx then bounds.right else bounds.left,
     center.y + dy * halfWidth / |dx|⟩
  else
    ⟨center.x + dx * halfHeight / |dy|,
     if 0 < dy then bounds.bottom else bounds.top⟩

/-- `getLineIntersection`: general two-line intersection with the
`|denominator| < 1e-10` parallel guard returning `p1`. -/
def getLineIntersection (p1 p2 p3 p4 : Point) : Point :=
  let denominator :=
    (p1.x - p2.x) * (p3.y - p4.y) - (p1.y - p2.y) * (p3.x - p4.x)
  if |denominator| < 1 / 10000000000 then p1
  else
    let t := ((p1.x - p3.x) * (p3.y - p4.y) - (p1.y - p3.y) * (p3.x - p4.x)) / denominator
    ⟨p1.x + t * (p2.x - p1.x), p1.y + t * (p2.y - p1.y)⟩

/-- `getDiamondIntersection`: pick the crossed diamond edge by slope
comparison, then intersect segments. As in `getRectangleIntersection`,
the floating-point comparison `|dy/dx| ≤ halfHeight/halfWidth` is false
when `dx = 0`, modelled by the explicit guard. The source builds
`edge = [top, right, bottom]` or `[top, left, bottom]` depending on the
sign of `dx` but then intersects with the segment from `edge[0]` to
`edge[2]`, i.e. top–bottom for either sign (and left–right for either
sign of `dy` in the other branch), so the sign choice is immaterial. -/
def getDiamondIntersection (node : Node) (externalPoint : Point) : Point :=
  let center := getNodeCenter node
  let halfWidth := node.size.width / 2
  let halfHeight := node.size.height / 2
  let dx := externalPoint.x - center.x
  let dy := externalPoint.y - center.y
  let top : Point := ⟨center.x, center.y - halfHeight⟩
  let right : Point := ⟨center.x + halfWidth, center.y⟩
  let bottom : Point := ⟨center.x, center.y + halfHeight⟩
  let left : Point := ⟨center.x - halfWidth, center.y⟩
  if dx = 0 ∧ dy = 0 then center
  else if dx ≠ 0 ∧ |dy / dx| ≤ halfHeight / halfWidth then
    getLineIntersection center externalPoint top bottom
  else
    getLineIntersection center externalPoint left right

/-- `getNodeEdgeIntersection`, the Geometry Engine's per-shape anchor
function, restricted to the shapes whose arithmetic is exact: the source
dispatches on `node.type` with `ellipse → getEllipseIntersection`
(floating-point `Math.atan2`/`cos`/`sin`, which has no exact rational
embedding and which no claim here evaluates), `diamond →
getDiamondIntersection`, and every other type (rectangle, text) falling
through to `getRectangleIntersection`; a zero-length ray returns the
center. -/
def getNodeEdgeIntersection (node : Node) (externalPoint : Point) : Point :=
  let center := getNodeCenter node
  let dx := externalPoint.x - center.x
  let dy := externalPoint.y - center.y
  if dx = 0 ∧ dy = 0 then center
  else
    match node.type with
    | NodeType.diamond => getDiamondIntersection node externalPoint
    | _ => getRectangleIntersection node externalPoint

/-- `getNodeAnchor` from `CanvasNode.tsx`: the anchor used when node
drags recompute incident edge anchors. It always intersects with the
rectangle bounds, whatever the node type. When `|dx| > |dy|` is false and
`dy = 0` (coincident centers) the source divides by zero; the rational
model's `x/0 = 0` convention only differs there. -/
def getNodeAnchor (fromNode toNode : Node) : Point :=
  let fromCenter := getNodeCenter fromNode
  let toCenter := getNodeCenter toNode
  let dx := toCenter.x - fromCenter.x
  let dy := toCenter.y - fromCenter.y
  let halfWidth := fromNode.size.width / 2
  let halfHeight := fromNode.size.height / 2
  if |dy| < |dx| then
    ⟨fromCenter.x + (if 0 < dx then halfWidth else -halfWidth),
     fromCenter.y + dy * halfWidth / |dx|⟩
  else
    ⟨fromCenter.x + dx * halfHeight / |dy|,
     fromCenter.y + (if 0 < dy then halfHeight else -halfHeight)⟩

/-- `handleDragMove` from `CanvasNode.tsx`, store-level effect: move the
node, then for every incident edge recompute both anchors with
`getNodeAnchor` on the post-move endpoint nodes (skipping edges whose
endpoints cannot be found). `dragStep` is the per-edge body of that
loop. -/
def dragStep (acc : CanvasState) (e : Edge) : CanvasState :=
  match acc.nodes.find? (fun n => n.id == e.sourceNodeId),
        acc.nodes.find? (fun n => n.id == e.targetNodeId) with
  | some sn, some tn =>
      updateEdgeAnchors acc e.id (getNodeAnchor sn tn) (getNodeAnchor tn sn)
  | _, _ => acc

def dragMoveNode (s : CanvasState) (id : String) (newPosition : Point) : CanvasState :=
  let s1 := updateNode s id { position := some newPosition }
  let connected := s1.edges.filter (fun e =>
    e.sourceNodeId == id || e.targetNodeId == id)
  connected.foldl dragStep s1

/-- The resize-handle drag from `ResizeHandles.tsx`: whatever raw size
the gesture computes, it is clamped with `Math.max(20, ·)` on each
component before `onResize → updateNode` runs. -/
def resizeNodeTo (s : CanvasState) (id : String) (rawWidth rawHeight : ℚ) : CanvasState :=
  updateNode s id { size := some ⟨max 20 rawWidth, max 20 rawHeight⟩ }

/-! ## Viewport transform (Canvas.tsx) -/

/-- Screen → world (`(pos - viewport.offset) / viewport.scale`,
Canvas.tsx pointer handlers). -/
def toWorld (p : Point) (v : ViewportState) : Point :=
  ⟨(p.x - v.x) / v.scale, (p.y - v.y) / v.scale⟩

/-- World → screen: the Konva stage renders with `position = (v.x, v.y)`
and `scale = v.scale` (Canvas.tsx), so a world point lands on screen at
`w·scale + offset` — the inverse of `toWorld`. -/
def toScreen (w : Point) (v : ViewportState) : Point :=
  ⟨w.x * v.scale + v.x, w.y * v.scale + v.y⟩

/-! ## Derived predicates -/

/-- The ids of the nodes currently in the store. -/
def nodeIds (s : CanvasState) : List String :=
  s.nodes.map Node.id

/-- The ids of the edges currently in the store. -/
def edgeIds (s : CanvasState) : List String :=
  s.edges.map Edge.id

/-- Selection referential integrity: every selected id refers to a node
or edge actually present. -/
def selectionIntegrity (s : CanvasState) : Prop :=
  (∀ i ∈ s.selectedNodes, i ∈ nodeIds s) ∧ (∀ i ∈ s.selectedEdges, i ∈ edgeIds s)

instance (s : CanvasState) : Decidable (selectionIntegrity s) := by
  unfold selectionIntegrity; infer_instance

/-- Edge referential integrity: every edge endpoint refers to a present
node. -/
def edgeRefIntegrity (s : CanvasState) : Prop :=
  ∀ e ∈ s.edges, e.sourceNodeId ∈ nodeIds s ∧ e.targetNodeId ∈ nodeIds s

/-- Anchor consistency as the spec states it: every edge's cached anchors
are the Geometry Engine boundary points towards the other endpoint's
center. -/
def anchorsConsistent (s : CanvasState) : Prop :=
  ∀ e ∈ s.edges,
    ∀ sn ∈ s.nodes.find? (fun n => n.id == e.sourceNodeId),
    ∀ tn ∈ s.nodes.find? (fun n => n.id == e.targetNodeId),
      e.sourceAnchor = getNodeEdgeIntersection sn (getNodeCenter tn) ∧
      e.targetAnchor = getNodeEdgeIntersection tn (getNodeCenter sn)

/-! ## Theorems -/

/-- C10: `zoom` and `pan` change only the viewport — nodes, edges, both
selection sets, tool mode, connecting state, the selection box, the
history list and the history index are all left unchanged. -/
theorem C10_zoom_pan_frame (s : CanvasState) (delta : ℚ) (p d : Point) :
    ((zoom s delta p).nodes = s.nodes ∧ (zoom s delta p).edges = s.edges ∧
     (zoom s delta p).selectedNodes = s.selectedNodes ∧
     (zoom s delta p).selectedEdges = s.selectedEdges ∧
     (zoom s delta p).tool = s.tool ∧
     (zoom s delta p).isConnecting = s.isConnecting ∧
     (zoom s delta p).connectionSource = s.connectionSource ∧
     (zoom s delta p).selectionBox = s.selectionBox ∧
     (zoom s delta p).history = s.history ∧
     (zoom s delta p).historyIndex = s.historyIndex) ∧
    ((pan s d).nodes = s.nodes ∧ (pan s d).edges = s.edges ∧
     (pan s d).selectedNodes = s.selectedNodes ∧
     (pan s d).selectedEdges = s.selectedEdges ∧
     (pan s d).tool = s.tool ∧
     (pan s d).isConnecting = s.isConnecting ∧
     (pan s d).connectionSource = s.connectionSource ∧
     (pan s d).selectionBox = s.selectionBox ∧
     (pan s d).history = s.history ∧
     (pan s d).historyIndex = s.historyIndex) :=
  ⟨⟨rfl, rfl, rfl, rfl, rfl, rfl, rfl, rfl, rfl, rfl⟩,
   ⟨rfl, rfl, rfl, rfl, rfl, rfl, rfl, rfl, rfl, rfl⟩⟩

/-- C6 (amended): `zoom` clamps the new scale into [1/10, 3] and sets
`offset' = offset - pivot·(scale' - scale)`; what this keeps fixed on
screen is the world point whose world coordinates equal the pivot (its
screen image is unchanged), not the world point that was under the pivot
screen point. -/
theorem C6_zoom_clamp_and_fixed_point (s : CanvasState) (delta : ℚ) (p : Point) :
    (1/10 ≤ (zoom s delta p).viewport.scale ∧ (zoom s delta p).viewport.scale ≤ 3) ∧
    (zoom s delta p).viewport.x
      = s.viewport.x - p.x * ((zoom s delta p).viewport.scale - s.viewport.scale) ∧
    (zoom s delta p).viewport.y
      = s.viewport.y - p.y * ((zoom s delta p).viewport.scale - s.viewport.scale) ∧
    toScreen p (zoom s delta p).viewport = toScreen p s.viewport := by
  unfold zoom toScreen
  refine ⟨⟨le_max_left _ _, max_le (by norm_num) (min_le_left _ _)⟩, rfl, rfl, ?_⟩
  simp only [Point.mk.injEq]
  constructor <;> ring

/-- Concrete viewport for the C6 counterexample: offset (50, 0), scale 1. -/
def C6state : CanvasState :=
  { initialState with viewport := ⟨50, 0, 1⟩ }

/-- C6 counterexample: zooming by +1 at pivot (100, 0) from viewport
(offset (50,0), scale 1) sends the world point previously under the
pivot — world (50,0) — to screen (50,0), not back to (100,0): the
claimed screen-pivot invariance fails. -/
theorem C6_counterexample :
    toScreen (toWorld ⟨100, 0⟩ C6state.viewport) (zoom C6state 1 ⟨100, 0⟩).viewport
      ≠ (⟨100, 0⟩ : Point) := by
  simp only [C6state, initialState, toWorld, toScreen, zoom, Point.mk.injEq, not_and]
  intro h
  norm_num at h

/-- Node "a" for the C9 counterexample. -/
def C9node : Node :=
  ⟨"a", NodeType.rectangle, ⟨0, 0⟩, ⟨120, 80⟩, "New Node", "#ffffff", "#666666", 2⟩

/-- A state in `Connecting("a")`. -/
def C9state : CanvasState :=
  { initialState with nodes := [C9node], tool := Tool.line, isConnecting := true,
                      connectionSource := some "a" }

/-- C9 counterexample: with the connection source "a" recorded,
`endConnection("a")` does not stay in `Connecting("a")` — it creates no
edge but clears `isConnecting` and `connectionSource` and reverts the
tool to select. -/
theorem C9_counterexample :
    (endConnection C9state "e" "a").isConnecting = false ∧
    (endConnection C9state "e" "a").connectionSource = none ∧
    (endConnection C9state "e" "a").edges = [] ∧
    (endConnection C9state "e" "a").tool = Tool.select ∧
    C9state.isConnecting = true ∧ C9state.connectionSource = some "a" := by
  refine ⟨rfl, rfl, ?_, rfl, rfl, rfl⟩
  simp [endConnection, C9state, initialState]

/-- C9 (amended): when the recorded connection source equals the node
passed to `endConnection`, no edge is created, but the connecting state
is cleared rather than kept: the result is the input state with
`isConnecting := false`, `connectionSource := none`, `tool := select`.
(The same-node click in `CanvasNode.tsx` never calls `endConnection`, so
at the UI level the connecting state does persist; the store operation
itself cancels.) -/
theorem C9_endConnection_same_node (s : CanvasState) (newId src : String)
    (h : s.connectionSource = some src) :
    endConnection s newId src
      = { s with isConnecting := false, connectionSource := none,
                 tool := Tool.select } := by
  unfold endConnection
  rw [h]
  simp

/-- Witness for C9: the amended statement applied to the concrete
connecting state. -/
theorem C9_endConnection_same_node_witness :
    endConnection C9state "e" "a"
      = { C9state with isConnecting := false, connectionSource := none,
                       tool := Tool.select } :=
  C9_endConnection_same_node C9state "e" "a" rfl

/-- Nodes for the C5 counterexample. -/
def C5nodeA : Node :=
  ⟨"a", NodeType.rectangle, ⟨0, 0⟩, ⟨120, 80⟩, "New Node", "#ffffff", "#666666", 2⟩

/-- Second node for the C5 counterexample. -/
def C5nodeB : Node :=
  ⟨"b", NodeType.rectangle, ⟨300, 0⟩, ⟨120, 80⟩, "New Node", "#ffffff", "#666666", 2⟩

/-- A state with nodes "a" and "b" both selected. -/
def C5state : CanvasState :=
  { initialState with nodes := [C5nodeA, C5nodeB], selectedNodes := ["a", "b"] }

/-- C5 counterexample: with selection {"a", "b"}, `selectNode("a", false)`
does not replace the selection with {"a"} (as the claim says it should,
"a" not being the sole selected node): it clears the selection entirely,
because the code clears whenever the clicked id is already selected. -/
theorem C5_counterexample :
    (selectNode C5state "a" false).selectedNodes ≠ ["a"] ∧
    (selectNode C5state "a" false).selectedNodes = [] := by
  constructor
  · simp [selectNode, C5state, initialState]
  · simp [selectNode, C5state, initialState]

/-- C5 (amended): with `multiSelect` the call toggles the id's membership
and leaves every other id's membership unchanged; without `multiSelect`
it clears the node selection whenever the id is already selected (sole
or not) and otherwise replaces the selection with just that id; the edge
selection becomes empty in every case. -/
theorem C5_selectNode_semantics (s : CanvasState) (id : String) :
    ((id ∈ (selectNode s id true).selectedNodes) ↔ id ∉ s.selectedNodes) ∧
    (∀ j : String, j ≠ id →
      ((j ∈ (selectNode s id true).selectedNodes) ↔ j ∈ s.selectedNodes)) ∧
    ((selectNode s id false).selectedNodes
      = if id ∈ s.selectedNodes then [] else [id]) ∧
    (∀ m : Bool, (selectNode s id m).selectedEdges = []) := by
  refine ⟨?_, ?_, ?_, ?_⟩
  · by_cases h : id ∈ s.selectedNodes <;>
      simp [selectNode, h, List.mem_filter]
  · intro j hj
    by_cases h : id ∈ s.selectedNodes <;>
      simp [selectNode, h, hj, List.mem_filter]
  · by_cases h : id ∈ s.selectedNodes <;>
      simp [selectNode, h]
  · intro m
    cases m <;> simp [selectNode]

/-- Witness for C5: amended semantics at the concrete two-node state,
with the other id instantiated to "b". -/
theorem C5_selectNode_semantics_witness :
    (("a" ∈ (selectNode C5state "a" true).selectedNodes) ↔
      "a" ∉ C5state.selectedNodes) ∧
    (("b" ∈ (selectNode C5state "a" true).selectedNodes) ↔
      "b" ∈ C5state.selectedNodes) ∧
    ((selectNode C5state "a" false).selectedNodes
      = if "a" ∈ C5state.selectedNodes then [] else ["a"]) ∧
    (selectNode C5state "a" false).selectedEdges = [] :=
  ⟨(C5_selectNode_semantics C5state "a").1,
   (C5_selectNode_semantics C5state "a").2.1 "b" (by decide),
   (C5_selectNode_semantics C5state "a").2.2.1,
   (C5_selectNode_semantics C5state "a").2.2.2 false⟩

/-- Node "a" for the C2 counterexample. -/
def C2node : Node :=
  ⟨"a", NodeType.rectangle, ⟨0, 0⟩, ⟨120, 80⟩, "New Node", "#ffffff", "#666666", 2⟩

/-- A state with node "a" and no edges. -/
def C2state : CanvasState :=
  { initialState with nodes := [C2node] }

/-- C2 counterexample: `addEdge("a", "a")` on a state containing node "a"
and no edges is not a no-op — it creates a self-loop edge whose source
and target node ids are both "a", refuting the claimed self-loop
rejection (and the claimed invariant `sourceNodeId ≠ targetNodeId`). -/
theorem C2_counterexample :
    (addEdge C2state "e" "a" "a").edges.map
        (fun e => (e.id, e.sourceNodeId, e.targetNodeId))
      = [("e", "a", "a")] := by
  simp [addEdge, C2state, C2node, initialState, connectsPair, saveHistory]

/-- C2 (amended): `addEdge` is a no-op (the state is returned unchanged,
with no history commit) whenever either endpoint id matches no node or
some existing edge already joins the unordered pair in either direction;
the code has no `sourceId ≠ targetId` check, so a self-loop on an
existing node with no prior connection is created rather than
rejected. -/
theorem C2_addEdge_noop (s : CanvasState) (newId src tgt : String) :
    (s.nodes.find? (fun n => n.id == src) = none ∨
     s.nodes.find? (fun n => n.id == tgt) = none ∨
     (s.edges.find? (connectsPair src tgt)).isSome = true) →
    addEdge s newId src tgt = s := by
  intro h
  unfold addEdge
  rcases hsrc : s.nodes.find? (fun n => n.id == src) with _ | sn
  · rw [hsrc]
  · rcases htgt : s.nodes.find? (fun n => n.id == tgt) with _ | tn
    · rw [hsrc, htgt]
    · rw [hsrc, htgt]
      rcases h with h | h | h
      · exact absurd h (by simp [hsrc])
      · exact absurd h (by simp [htgt])
      · simp [h]

/-- Witness for C2: `addEdge` with a missing target id on the concrete
one-node state returns the state unchanged. -/
theorem C2_addEdge_noop_witness :
    addEdge C2state "e" "a" "ghost" = C2state :=
  C2_addEdge_noop C2state "e" "a" "ghost"
    (Or.inr (Or.inl (by simp [C2state, C2node, initialState])))

/-- Node for the C4 counterexample: the default 120×80 rectangle. -/
def C4node : Node :=
  ⟨"a", NodeType.rectangle, ⟨0, 0⟩, ⟨120, 80⟩, "New Node", "#ffffff", "#666666", 2⟩

/-- A state with the single node "a". -/
def C4state : CanvasState :=
  { initialState with nodes := [C4node] }

/-- C4 counterexample: `updateNode(id, {size:{width:5,height:5}})` stores
width 5 and height 5 verbatim — the claimed result of width = height = 20
does not hold, because `updateNode` performs no clamping. -/
theorem C4_counterexample :
    ((updateNode C4state "a" { size := some ⟨5, 5⟩ }).nodes.map Node.size)
        ≠ [⟨20, 20⟩] ∧
    ((updateNode C4state "a" { size := some ⟨5, 5⟩ }).nodes.map Node.size)
        = [⟨5, 5⟩] := by
  constructor
  · simp only [updateNode, C4state, C4node, initialState, applyNodeUpdates]
    intro h
    simp only [List.map, List.cons.injEq, Size.mk.injEq] at h
    norm_num at h
  · rfl

/-- C4 (amended): `updateNode` itself merges the requested size verbatim
with no minimum enforcement; the 20-unit floor is applied upstream by the
resize-handle gesture, which clamps each component with `max 20` before
calling `updateNode`, so every resize-gesture mutation leaves width and
height at least 20. -/
theorem C4_size_floor (s : CanvasState) (id : String) (w h : ℚ) :
    (∀ n ∈ (resizeNodeTo s id w h).nodes,
      n.id = id → 20 ≤ n.size.width ∧ 20 ≤ n.size.height) ∧
    (∀ sz : Size, ∀ n ∈ (updateNode s id { size := some sz }).nodes,
      n.id = id → n.size = sz) := by
  constructor
  · intro n hn hid2
    simp only [resizeNodeTo, updateNode, List.mem_map] at hn
    obtain ⟨m, _, hm⟩ := hn
    by_cases hc : (m.id == id) = true
    · rw [if_pos hc] at hm
      rw [← hm]
      exact ⟨le_max_left _ _, le_max_left _ _⟩
    · rw [if_neg hc] at hm
      subst hm
      exact absurd (beq_iff_eq.mpr hid2) hc
  · intro sz n hn hid2
    simp only [updateNode, List.mem_map] at hn
    obtain ⟨m, _, hm⟩ := hn
    by_cases hc : (m.id == id) = true
    · rw [if_pos hc] at hm
      rw [← hm]
      simp [applyNodeUpdates]
    · rw [if_neg hc] at hm
      subst hm
      exact absurd (beq_iff_eq.mpr hid2) hc

/-- The node "a" after the clamped resize of the witness. -/
def C4resizedNode : Node :=
  { C4node with size := ⟨20, 20⟩ }

/-- Witness for C4: resizing node "a" to raw size 5×5 through the
resize-handle path yields the clamped 20×20 node, whose dimensions
satisfy the floor by the amended theorem. -/
theorem C4_size_floor_witness :
    C4resizedNode ∈ (resizeNodeTo C4state "a" 5 5).nodes ∧
    20 ≤ C4resizedNode.size.width ∧ 20 ≤ C4resizedNode.size.height := by
  have hmem : C4resizedNode ∈ (resizeNodeTo C4state "a" 5 5).nodes := by
    simp only [resizeNodeTo, updateNode, C4state, C4node, initialState,
      applyNodeUpdates, C4resizedNode, List.map]
    norm_num
  exact ⟨hmem, (C4_size_floor C4state "a" 5 5).1 C4resizedNode hmem rfl⟩

/-- Membership in the node-id list, unfolded. -/
theorem mem_nodeIds {s : CanvasState} {i : String} :
    i ∈ nodeIds s ↔ ∃ n ∈ s.nodes, n.id = i := by
  simp [nodeIds]

/-- Membership in the edge-id list, unfolded. -/
theorem mem_edgeIds {s : CanvasState} {i : String} :
    i ∈ edgeIds s ↔ ∃ e ∈ s.edges, e.id = i := by
  simp [edgeIds]

/-- C8 counterexample: deleting a non-existent node id is not a total
no-op — `deleteNode` calls `saveHistory` unconditionally, so from the
initial state the history grows from empty to one snapshot and the index
moves from -1 to 0. -/
theorem C8_counterexample :
    (deleteNode initialState "ghost").history ≠ initialState.history ∧
    (deleteNode initialState "ghost").historyIndex ≠ initialState.historyIndex := by
  constructor
  · simp [deleteNode, saveHistory, pushSnap, initialState, contentOf]
  · simp [deleteNode, saveHistory, pushSnap, initialState, contentOf]

/-- C8 (amended): calling `deleteNode`/`deleteEdge` with an id that
refers to nothing leaves nodes, edges, selection and viewport unchanged,
but is not a total no-op: each still commits, so the result is exactly
`saveHistory s` — the redo future is truncated and a (duplicate)
snapshot is appended, moving the history index. The integrity hypotheses
exclude stale selections or dangling edge endpoints that carry the
missing id. -/
theorem C8_missing_id_still_commits (s : CanvasState) (id : String)
    (hsel : selectionIntegrity s) (href : edgeRefIntegrity s) :
    (id ∉ nodeIds s → deleteNode s id = saveHistory s) ∧
    (id ∉ edgeIds s → deleteEdge s id = saveHistory s) ∧
    (saveHistory s).nodes = s.nodes ∧ (saveHistory s).edges = s.edges ∧
    (saveHistory s).selectedNodes = s.selectedNodes ∧
    (saveHistory s).selectedEdges = s.selectedEdges ∧
    (saveHistory s).viewport = s.viewport ∧
    (saveHistory s).history = pushSnap s.history s.historyIndex (contentOf s) := by
  refine ⟨?_, ?_, rfl, rfl, rfl, rfl, rfl, rfl⟩
  · intro hid
    have h1 : s.nodes.filter (fun node => node.id != id) = s.nodes := by
      rw [List.filter_eq_self]
      intro n hn
      simp only [bne_iff_ne, ne_eq, decide_not, Bool.not_eq_false', decide_eq_true_eq]
      intro heq
      apply hid
      rw [← heq]
      exact List.mem_map_of_mem Node.id hn
    have h2 : s.edges.filter
        (fun edge => edge.sourceNodeId != id && edge.targetNodeId != id) = s.edges := by
      rw [List.filter_eq_self]
      intro e he
      have h3 := href e he
      simp only [Bool.and_eq_true, bne_iff_ne, ne_eq, decide_not,
        Bool.not_eq_false', decide_eq_true_eq]
      constructor
      · intro heq; exact hid (heq ▸ h3.1)
      · intro heq; exact hid (heq ▸ h3.2)
    have h3 : s.selectedNodes.filter (fun nodeId => nodeId != id) = s.selectedNodes := by
      rw [List.filter_eq_self]
      intro i hi
      simp only [bne_iff_ne, ne_eq, decide_not, Bool.not_eq_false', decide_eq_true_eq]
      intro heq
      exact hid (heq ▸ hsel.1 i hi)
    unfold deleteNode
    rw [h1, h2, h3]
  · intro hid
    have h1 : s.edges.filter (fun edge => edge.id != id) = s.edges := by
      rw [List.filter_eq_self]
      intro e he
      simp only [bne_iff_ne, ne_eq, decide_not, Bool.not_eq_false', decide_eq_true_eq]
      intro heq
      apply hid
      rw [← heq]
      exact List.mem_map_of_mem Edge.id he
    have h2 : s.selectedEdges.filter (fun edgeId => edgeId != id) = s.selectedEdges := by
      rw [List.filter_eq_self]
      intro i hi
      simp only [bne_iff_ne, ne_eq, decide_not, Bool.not_eq_false', decide_eq_true_eq]
      intro heq
      exact hid (heq ▸ hsel.2 i hi)
    unfold deleteEdge
    rw [h1, h2]

/-- Witness for C8: from the initial state, deleting the missing id
"ghost" (as node or edge) equals a bare history commit. -/
theorem C8_missing_id_still_commits_witness :
    deleteNode initialState "ghost" = saveHistory initialState ∧
    deleteEdge initialState "ghost" = saveHistory initialState := by
  have h := C8_missing_id_still_commits initialState "ghost"
    (by constructor <;> intro i hi <;> simp [initialState] at hi)
    (by intro e he; simp [initialState] at he)
  exact ⟨h.1 (by simp [nodeIds, initialState]), h.2.1 (by simp [edgeIds, initialState])⟩

/-- C7 counterexample: `selectNode` performs no existence check, so
selecting the id "ghost" in the empty initial state puts "ghost" into
the selected-node set even though no such node exists. -/
theorem C7_counterexample :
    ¬ selectionIntegrity (selectNode initialState "ghost" false) := by
  intro h
  have hmem : "ghost" ∈ (selectNode initialState "ghost" false).selectedNodes := by
    simp [selectNode, initialState]
  have := h.1 "ghost" hmem
  simp [nodeIds, selectNode, initialState] at this

/-- C7 (amended): selection referential integrity is preserved by the
delete operations — `deleteNode` provided no edge is selected at the
time (the store never populates the edge selection: no operation adds to
`selectedEdges`, edge clicking being unimplemented), `deleteEdge`, and
`deleteSelected` — and by `selectNode`/`selectNodes` when the ids passed
refer to existing nodes; called with arbitrary ids, the selection
operations can break the invariant, as the counterexample shows. -/
theorem C7_selection_integrity (s : CanvasState) (id : String) (ids : List String) :
    selectionIntegrity s →
    ((s.selectedEdges = [] → selectionIntegrity (deleteNode s id)) ∧
     selectionIntegrity (deleteEdge s id) ∧
     selectionIntegrity (deleteSelected s) ∧
     (id ∈ nodeIds s → ∀ m : Bool, selectionIntegrity (selectNode s id m)) ∧
     ((∀ i ∈ ids, i ∈ nodeIds s) → selectionIntegrity (selectNodes s ids))) := by
  intro hsel
  obtain ⟨hseln, hsele⟩ := hsel
  refine ⟨?_, ?_, ?_, ?_, ?_⟩
  · intro he
    constructor
    · intro i hi
      have hi' : i ∈ s.selectedNodes.filter (fun nodeId => nodeId != id) := hi
      rw [List.mem_filter] at hi'
      obtain ⟨hmem, hne⟩ := hi'
      have hn := hseln i hmem
      rw [mem_nodeIds] at hn
      obtain ⟨n, hn1, hn2⟩ := hn
      show i ∈ (s.nodes.filter (fun node => node.id != id)).map Node.id
      rw [← hn2]
      apply List.mem_map_of_mem
      rw [List.mem_filter]
      refine ⟨hn1, ?_⟩
      rw [hn2]
      exact hne
    · intro i hi
      have hi' : i ∈ s.selectedEdges := hi
      rw [he] at hi'
      exact absurd hi' (List.not_mem_nil i)
  · constructor
    · intro i hi
      exact hseln i hi
    · intro i hi
      have hi' : i ∈ s.selectedEdges.filter (fun edgeId => edgeId != id) := hi
      rw [List.mem_filter] at hi'
      obtain ⟨hmem, hne⟩ := hi'
      have hn := hsele i hmem
      rw [mem_edgeIds] at hn
      obtain ⟨e, he1, he2⟩ := hn
      show i ∈ (s.edges.filter (fun edge => edge.id != id)).map Edge.id
      rw [← he2]
      apply List.mem_map_of_mem
      rw [List.mem_filter]
      refine ⟨he1, ?_⟩
      rw [he2]
      exact hne
  · exact ⟨fun i hi => absurd hi (List.not_mem_nil i),
           fun i hi => absurd hi (List.not_mem_nil i)⟩
  · intro hid m
    constructor
    · intro i hi
      have hnodes : nodeIds (selectNode s id m) = nodeIds s := by
        cases m <;> rfl
      rw [hnodes]
      have hcase : i ∈ s.selectedNodes ∨ i = id := by
        cases m <;> by_cases hmem : id ∈ s.selectedNodes <;>
          simp [selectNode, hmem, List.mem_filter] at hi <;> tauto
      rcases hcase with h | h
      · exact hseln i h
      · rw [h]; exact hid
    · intro i hi
      cases m <;> simp [selectNode] at hi
  · intro hall
    exact ⟨fun i hi => hall i hi, fun i hi => absurd hi (List.not_mem_nil i)⟩

/-- Node "a" for the C7 witness. -/
def C7node : Node :=
  ⟨"a", NodeType.rectangle, ⟨0, 0⟩, ⟨120, 80⟩, "New Node", "#ffffff", "#666666", 2⟩

/-- A state with one node "a", which is selected. -/
def C7state : CanvasState :=
  { initialState with nodes := [C7node], selectedNodes := ["a"] }

/-- Witness for C7: the preservation statement applied to the concrete
one-node state with "a" selected, instantiated at the existing id "a". -/
theorem C7_selection_integrity_witness :
    selectionIntegrity (deleteNode C7state "a") ∧
    selectionIntegrity (deleteEdge C7state "a") ∧
    selectionIntegrity (deleteSelected C7state) ∧
    selectionIntegrity (selectNode C7state "a" true) ∧
    selectionIntegrity (selectNodes C7state ["a"]) := by
  obtain ⟨h1, h2, h3, h4, h5⟩ := C7_selection_integrity C7state "a" ["a"] (by decide)
  exact ⟨h1 rfl, h2, h3, h4 (by decide) true, h5 (by decide)⟩

/-- The history list produced by a commit is never empty. -/
theorem pushSnap_length_pos (h : List HistoryState) (i : Int) (snap : HistoryState) :
    0 < (pushSnap h i snap).length := by
  unfold pushSnap
  split
  · rename_i hgt
    rw [List.length_tail]
    omega
  · simp

/-- The last entry of the history list produced by a commit is the
snapshot just pushed (also across the 50-entry eviction). -/
theorem pushSnap_last (h : List HistoryState) (i : Int) (snap : HistoryState) :
    (pushSnap h i snap)[(pushSnap h i snap).length - 1]? = some snap := by
  rw [← List.getLast?_eq_getElem?]
  unfold pushSnap
  rcases hl : h.take (i + 1).toNat with _ | ⟨x, xs⟩
  · simp
  · split
    · simp [List.getLast?_concat]
    · exact List.getLast?_concat _

/-- `undo` on a state whose index is positive and whose previous entry
exists restores that entry and decrements the index. -/
theorem undo_eq_of_get (t : CanvasState) (p : HistoryState)
    (hp : 0 < t.historyIndex)
    (hget : t.history[(t.historyIndex - 1).toNat]? = some p) :
    undo t = { t with nodes := p.nodes, edges := p.edges, viewport := p.viewport,
                      historyIndex := t.historyIndex - 1,
                      selectedNodes := [], selectedEdges := [] } := by
  unfold undo
  rw [if_pos hp, hget]

/-- `redo` on a state whose index is before the last entry restores the
next entry and increments the index. -/
theorem redo_eq_of_get (t : CanvasState) (p : HistoryState)
    (hp : t.historyIndex < (t.history.length : Int) - 1)
    (hget : t.history[(t.historyIndex + 1).toNat]? = some p) :
    redo t = { t with nodes := p.nodes, edges := p.edges, viewport := p.viewport,
                      historyIndex := t.historyIndex + 1,
                      selectedNodes := [], selectedEdges := [] } := by
  unfold redo
  rw [if_pos hp, hget]

/-- C3: committing a snapshot then undoing then redoing restores diagram
content (nodes, edges, viewport) structurally equal to the committed
snapshot; `undo` at history index 0 changes nothing; `redo` with the
index at the last entry changes nothing. -/
theorem C3_history_round_trip (s : CanvasState) :
    contentOf (redo (undo (saveHistory s))) = contentOf s ∧
    (s.historyIndex = 0 → undo s = s) ∧
    (s.historyIndex = (s.history.length : Int) - 1 → redo s = s) := by
  refine ⟨?_, ?_, ?_⟩
  · set s1 := saveHistory s with hs1
    have hhist : s1.history = pushSnap s.history s.historyIndex (contentOf s) := rfl
    have hidx : s1.historyIndex = (s1.history.length : Int) - 1 := rfl
    have hlen : 0 < s1.history.length := by
      rw [hhist]; exact pushSnap_length_pos _ _ _
    have hlast : s1.history[s1.history.length - 1]? = some (contentOf s) := by
      rw [hhist]; exact pushSnap_last _ _ _
    by_cases hone : s1.history.length = 1
    · have hnopos : ¬ 0 < s1.historyIndex := by rw [hidx]; omega
      have hu : undo s1 = s1 := by unfold undo; rw [if_neg hnopos]
      have hnoredo : ¬ s1.historyIndex < (s1.history.length : Int) - 1 := by
        rw [hidx]; omega
      have hr : redo s1 = s1 := by unfold redo; rw [if_neg hnoredo]
      rw [hu, hr]
      rfl
    · have hlen2 : 2 ≤ s1.history.length := by omega
      have hpos : 0 < s1.historyIndex := by rw [hidx]; omega
      obtain ⟨prev, hprev⟩ : ∃ p, s1.history[(s1.historyIndex - 1).toNat]? = some p := by
        refine ⟨s1.history[(s1.historyIndex - 1).toNat], List.getElem?_eq_getElem ?_⟩
        rw [hidx]; omega
      have hu := undo_eq_of_get s1 prev hpos hprev
      rw [hu]
      have hcond : s1.historyIndex - 1 < (s1.history.length : Int) - 1 := by omega
      have hplus : (s1.historyIndex - 1 + 1).toNat = s1.history.length - 1 := by
        rw [hidx]; omega
      have hget2 :
          s1.history[(s1.historyIndex - 1 + 1).toNat]? = some (contentOf s) := by
        rw [hplus]; exact hlast
      have hr := redo_eq_of_get
        { s1 with nodes := prev.nodes, edges := prev.edges, viewport := prev.viewport,
                  historyIndex := s1.historyIndex - 1,
                  selectedNodes := [], selectedEdges := [] }
        (contentOf s) hcond hget2
      rw [hr]
      rfl
  · intro h0
    have hnopos : ¬ 0 < s.historyIndex := by omega
    unfold undo
    rw [if_neg hnopos]
  · intro hend
    have hnoredo : ¬ s.historyIndex < (s.history.length : Int) - 1 := by omega
    unfold redo
    rw [if_neg hnoredo]

/-- A concrete one-entry history: the initial state after one commit. -/
def C3state : CanvasState := saveHistory initialState

/-- Witness for C3 at the concrete one-entry state: its index, 0, is both
the bottom and the top of the history, so both boundary no-op hypotheses
are dischargeable and the round trip evaluates. -/
theorem C3_history_round_trip_witness :
    contentOf (redo (undo (saveHistory C3state))) = contentOf C3state ∧
    undo C3state = C3state ∧ redo C3state = C3state :=
  ⟨(C3_history_round_trip C3state).1,
   (C3_history_round_trip C3state).2.1 (by rfl),
   (C3_history_round_trip C3state).2.2 (by rfl)⟩

/-- Rectangle node "a" at the origin, default 120×80 size, for C1. -/
def C1nodeA : Node :=
  ⟨"a", NodeType.rectangle, ⟨0, 0⟩, ⟨120, 80⟩, "New Node", "#ffffff", "#666666", 2⟩

/-- Rectangle node "b" at (200, 0), default 120×80 size, for C1. -/
def C1nodeB : Node :=
  ⟨"b", NodeType.rectangle, ⟨200, 0⟩, ⟨120, 80⟩, "New Node", "#ffffff", "#666666", 2⟩

/-- Two disjoint rectangles, no edges. -/
def C1state : CanvasState :=
  { initialState with nodes := [C1nodeA, C1nodeB] }

/-- Evaluation of a successful `addEdge`: when both endpoints are found
and no duplicate connection exists, the new edge is appended carrying
the two node centers as anchors, and the node list is untouched. -/
theorem addEdge_found_eval (s : CanvasState) (newId src tgt : String) (sn tn : Node)
    (hs : s.nodes.find? (fun n => n.id == src) = some sn)
    (ht : s.nodes.find? (fun n => n.id == tgt) = some tn)
    (hdup : s.edges.find? (connectsPair src tgt) = none) :
    (addEdge s newId src tgt).edges
      = s.edges ++ [⟨newId, src, tgt, getNodeCenter sn, getNodeCenter tn⟩] ∧
    (addEdge s newId src tgt).nodes = s.nodes := by
  unfold addEdge
  rw [hs, ht]
  simp only [hdup, Option.isSome_none, Bool.false_eq_true, if_false]
  exact ⟨rfl, rfl⟩

/-- C1 counterexample: immediately after `addEdge` between the two
rectangles, the stored source anchor is node "a"'s center (60, 40),
while the Geometry Engine boundary point towards "b"'s center is
(120, 40) — the claimed anchor consistency fails right after
`addEdge`. -/
theorem C1_counterexample : ¬ anchorsConsistent (addEdge C1state "e" "a" "b") := by
  intro h
  obtain ⟨hedges0, hnodes⟩ :=
    addEdge_found_eval C1state "e" "a" "b" C1nodeA C1nodeB rfl rfl rfl
  have hedges : (addEdge C1state "e" "a" "b").edges
      = [⟨"e", "a", "b", getNodeCenter C1nodeA, getNodeCenter C1nodeB⟩] := by
    rw [hedges0]
    rfl
  have hmem : (⟨"e", "a", "b", getNodeCenter C1nodeA, getNodeCenter C1nodeB⟩ : Edge)
      ∈ (addEdge C1state "e" "a" "b").edges := by
    rw [hedges]
    exact List.mem_singleton.mpr rfl
  have hfs : (addEdge C1state "e" "a" "b").nodes.find?
      (fun n => n.id ==
        (⟨"e", "a", "b", getNodeCenter C1nodeA, getNodeCenter C1nodeB⟩ : Edge).sourceNodeId)
      = some C1nodeA := by
    rw [hnodes]
    rfl
  have hft : (addEdge C1state "e" "a" "b").nodes.find?
      (fun n => n.id ==
        (⟨"e", "a", "b", getNodeCenter C1nodeA, getNodeCenter C1nodeB⟩ : Edge).targetNodeId)
      = some C1nodeB := by
    rw [hnodes]
    rfl
  have hcons := h _ hmem C1nodeA (Option.mem_def.mpr hfs) C1nodeB (Option.mem_def.mpr hft)
  have h1 := hcons.1
  have hL : getNodeCenter C1nodeA = ⟨60, 40⟩ := by
    norm_num [getNodeCenter, C1nodeA]
  have hR : getNodeEdgeIntersection C1nodeA (getNodeCenter C1nodeB) = ⟨120, 40⟩ := by
    norm_num [getNodeEdgeIntersection, getNodeCenter, getRectangleIntersection,
      getNodeBounds, C1nodeA, C1nodeB]
  rw [hL, hR] at h1
  have hx : (60 : ℚ) = 120 := congrArg Point.x h1
  norm_num at hx

/-- The anchor recomputation a drag applies to one edge when both of its
endpoints resolve in the node list `N` (the body of the per-edge update
in `handleDragMove`). -/
def reanchor (N : List Node) (e : Edge) : Edge :=
  match N.find? (fun n => n.id == e.sourceNodeId),
        N.find? (fun n => n.id == e.targetNodeId) with
  | some sn, some tn =>
      { e with sourceAnchor := getNodeAnchor sn tn, targetAnchor := getNodeAnchor tn sn }
  | _, _ => e

theorem reanchor_id (N : List Node) (e : Edge) : (reanchor N e).id = e.id := by
  unfold reanchor
  rcases hfs : N.find? (fun n => n.id == e.sourceNodeId) with _ | sn <;>
    rcases hft : N.find? (fun n => n.id == e.targetNodeId) with _ | tn <;>
      simp only [hfs, hft]

theorem reanchor_sourceNodeId (N : List Node) (e : Edge) :
    (reanchor N e).sourceNodeId = e.sourceNodeId := by
  unfold reanchor
  rcases hfs : N.find? (fun n => n.id == e.sourceNodeId) with _ | sn <;>
    rcases hft : N.find? (fun n => n.id == e.targetNodeId) with _ | tn <;>
      simp only [hfs, hft]

theorem reanchor_targetNodeId (N : List Node) (e : Edge) :
    (reanchor N e).targetNodeId = e.targetNodeId := by
  unfold reanchor
  rcases hfs : N.find? (fun n => n.id == e.sourceNodeId) with _ | sn <;>
    rcases hft : N.find? (fun n => n.id == e.targetNodeId) with _ | tn <;>
      simp only [hfs, hft]

/-- Each edge produced by `updateEdgeAnchors` keeps the id and the two
endpoint references of the edge it replaces. -/
theorem updateEdgeAnchors_skeleton (s : CanvasState) (i : String) (a b : Point) :
    ∀ g ∈ (updateEdgeAnchors s i a b).edges,
      ∃ g0 ∈ s.edges, g.id = g0.id ∧ g.sourceNodeId = g0.sourceNodeId ∧
        g.targetNodeId = g0.targetNodeId := by
  intro g hg
  have hg2 : g ∈ s.edges.map (fun e =>
      if e.id == i then { e with sourceAnchor := a, targetAnchor := b } else e) := hg
  rw [List.mem_map] at hg2
  obtain ⟨g0, hg0, hup⟩ := hg2
  refine ⟨g0, hg0, ?_⟩
  by_cases h0 : (g0.id == i) = true
  · rw [if_pos h0] at hup
    rw [← hup]
    exact ⟨rfl, rfl, rfl⟩
  · rw [if_neg h0] at hup
    rw [← hup]
    exact ⟨rfl, rfl, rfl⟩

/-- Characterization of the drag loop: folding `dragStep` over a list of
edges with distinct ids (whose ids and endpoints agree with the edges of
the accumulator) leaves the nodes alone and re-anchors exactly the
edges whose id occurs in the list. -/
theorem foldl_dragStep_char (N : List Node) (todo : List Edge) :
    ∀ (acc : CanvasState),
      acc.nodes = N →
      (todo.map Edge.id).Nodup →
      (∀ t ∈ todo, ∀ g ∈ acc.edges, g.id = t.id →
        g.sourceNodeId = t.sourceNodeId ∧ g.targetNodeId = t.targetNodeId) →
      (todo.foldl dragStep acc).nodes = N ∧
      (todo.foldl dragStep acc).edges
        = acc.edges.map (fun g =>
            if (todo.map Edge.id).contains g.id then reanchor N g else g) := by
  induction todo with
  | nil =>
    intro acc hn _ _
    exact ⟨hn, by simp⟩
  | cons t ts ih =>
    intro acc hn hnodup hmatch
    have hnodup' : (ts.map Edge.id).Nodup := by
      rw [List.map_cons] at hnodup
      exact hnodup.of_cons
    have htnotin : t.id ∉ ts.map Edge.id := by
      rw [List.map_cons] at hnodup
      exact (List.nodup_cons.mp hnodup).1
    have hmatch' : ∀ t' ∈ ts, ∀ g ∈ acc.edges, g.id = t'.id →
        g.sourceNodeId = t'.sourceNodeId ∧ g.targetNodeId = t'.targetNodeId :=
      fun t' ht' => hmatch t' (List.mem_cons_of_mem _ ht')
    rw [List.foldl_cons]
    rcases hfs : acc.nodes.find? (fun n => n.id == t.sourceNodeId) with _ | sn
    · -- source endpoint not found: the step is skipped
      have hstep : dragStep acc t = acc := by
        unfold dragStep
        rw [hfs]
      rw [hstep]
      obtain ⟨ihn, ihe⟩ := ih acc hn hnodup' hmatch'
      refine ⟨ihn, ?_⟩
      rw [ihe]
      apply List.map_congr_left
      intro g hg
      by_cases hgid : g.id = t.id
      · have hends := hmatch t (List.mem_cons_self t ts) g hg hgid
        have hc1 : ((ts.map Edge.id).contains g.id) = false := by
          rw [hgid]
          exact Bool.eq_false_iff.mpr (fun hcontra => htnotin (by simpa using hcontra))
        have hc2 : (((t :: ts).map Edge.id).contains g.id) = true := by
          rw [List.map_cons, List.contains_cons]
          simp [hgid]
        rw [hc1, hc2]
        simp only [Bool.false_eq_true, if_false, if_true]
        have hfsN : N.find? (fun n => n.id == g.sourceNodeId) = none := by
          rw [hends.1, ← hn]
          exact hfs
        unfold reanchor
        rw [hfsN]
      · have hc : (((t :: ts).map Edge.id).contains g.id)
            = ((ts.map Edge.id).contains g.id) := by
          rw [List.map_cons, List.contains_cons]
          have : (g.id == t.id) = false :=
            Bool.eq_false_iff.mpr (fun hcontra => hgid (by simpa using hcontra))
          rw [this]
          simp
        rw [hc]
    · rcases hft : acc.nodes.find? (fun n => n.id == t.targetNodeId) with _ | tn
      · -- target endpoint not found: the step is skipped
        have hstep : dragStep acc t = acc := by
          unfold dragStep
          rw [hfs, hft]
        rw [hstep]
        obtain ⟨ihn, ihe⟩ := ih acc hn hnodup' hmatch'
        refine ⟨ihn, ?_⟩
        rw [ihe]
        apply List.map_congr_left
        intro g hg
        by_cases hgid : g.id = t.id
        · have hends := hmatch t (List.mem_cons_self t ts) g hg hgid
          have hc1 : ((ts.map Edge.id).contains g.id) = false := by
            rw [hgid]
            exact Bool.eq_false_iff.mpr (fun hcontra => htnotin (by simpa using hcontra))
          have hc2 : (((t :: ts).map Edge.id).contains g.id) = true := by
            rw [List.map_cons, List.contains_cons]
            simp [hgid]
          rw [hc1, hc2]
          simp only [Bool.false_eq_true, if_false, if_true]
          have hfsN : N.find? (fun n => n.id == g.sourceNodeId) = some sn := by
            rw [hends.1, ← hn]
            exact hfs
          have hftN : N.find? (fun n => n.id == g.targetNodeId) = none := by
            rw [hends.2, ← hn]
            exact hft
          unfold reanchor
          rw [hfsN, hftN]
        · have hc : (((t :: ts).map Edge.id).contains g.id)
              = ((ts.map Edge.id).contains g.id) := by
            rw [List.map_cons, List.contains_cons]
            have : (g.id == t.id) = false :=
              Bool.eq_false_iff.mpr (fun hcontra => hgid (by simpa using hcontra))
            rw [this]
            simp
          rw [hc]
      · -- both endpoints found: re-anchor edge t.id, then recurse
        have hstep : dragStep acc t
            = updateEdgeAnchors acc t.id (getNodeAnchor sn tn) (getNodeAnchor tn sn) := by
          unfold dragStep
          rw [hfs, hft]
        rw [hstep]
        have hmatch1 : ∀ t' ∈ ts,
            ∀ g ∈ (updateEdgeAnchors acc t.id (getNodeAnchor sn tn)
                    (getNodeAnchor tn sn)).edges, g.id = t'.id →
              g.sourceNodeId = t'.sourceNodeId ∧ g.targetNodeId = t'.targetNodeId := by
          intro t' ht' g hg hid2
          obtain ⟨g0, hg0, hskel⟩ := updateEdgeAnchors_skeleton acc t.id _ _ g hg
          have h0 := hmatch' t' ht' g0 hg0 (hskel.1 ▸ hid2)
          exact ⟨hskel.2.1.trans h0.1, hskel.2.2.trans h0.2⟩
        have hn1 : (updateEdgeAnchors acc t.id (getNodeAnchor sn tn)
            (getNodeAnchor tn sn)).nodes = N := hn
        obtain ⟨ihn, ihe⟩ := ih _ hn1 hnodup' hmatch1
        refine ⟨ihn, ?_⟩
        rw [ihe]
        show (List.map _ (List.map _ acc.edges)) = _
        rw [List.map_map]
        apply List.map_congr_left
        intro g hg
        simp only [Function.comp]
        by_cases hgid : g.id = t.id
        · have hends := hmatch t (List.mem_cons_self t ts) g hg hgid
          have hbeq : (g.id == t.id) = true := beq_iff_eq.mpr hgid
          rw [if_pos hbeq]
          have hc1 : ((ts.map Edge.id).contains g.id) = false := by
            rw [hgid]
            exact Bool.eq_false_iff.mpr (fun hcontra => htnotin (by simpa using hcontra))
          have hc2 : (((t :: ts).map Edge.id).contains g.id) = true := by
            rw [List.map_cons, List.contains_cons]
            simp [hgid]
          rw [hc2]
          simp only [if_true]
          have hc1' : ((ts.map Edge.id).contains
              ({ g with sourceAnchor := getNodeAnchor sn tn,
                        targetAnchor := getNodeAnchor tn sn } : Edge).id) = false := hc1
          rw [hc1']
          simp only [Bool.false_eq_true, if_false]
          have hfsN : N.find? (fun n => n.id == g.sourceNodeId) = some sn := by
            rw [hends.1, ← hn]
            exact hfs
          have hftN : N.find? (fun n => n.id == g.targetNodeId) = some tn := by
            rw [hends.2, ← hn]
            exact hft
          unfold reanchor
          rw [hfsN, hftN]
        · have hbeq : (g.id == t.id) = false :=
            Bool.eq_false_iff.mpr (fun hcontra => hgid (by simpa using hcontra))
          simp only [hbeq, Bool.false_eq_true, if_false]
          have hc : (((t :: ts).map Edge.id).contains g.id)
              = ((ts.map Edge.id).contains g.id) := by
            rw [List.map_cons, List.contains_cons, hbeq]
            simp
          rw [hc]

/-- C1 (amended): the anchors `addEdge` stores are the endpoint node
centers, not Geometry Engine boundary points (the source comments
"center of nodes for now"); what a node drag then establishes, for every
incident edge, is agreement with the rectangle-bounds `getNodeAnchor` of
`CanvasNode.tsx` applied to both endpoint nodes — for every node shape,
not the per-shape boundary function. -/
theorem C1_anchor_semantics (s : CanvasState) (newId src tgt id : String) (p : Point)
    (sn tn : Node)
    (hs : s.nodes.find? (fun n => n.id == src) = some sn)
    (ht : s.nodes.find? (fun n => n.id == tgt) = some tn)
    (hdup : s.edges.find? (connectsPair src tgt) = none)
    (hnodup : (s.edges.map Edge.id).Nodup) :
    (addEdge s newId src tgt).edges
      = s.edges ++ [⟨newId, src, tgt, getNodeCenter sn, getNodeCenter tn⟩] ∧
    (∀ e ∈ (dragMoveNode s id p).edges,
      e.sourceNodeId = id ∨ e.targetNodeId = id →
      ∀ sn2 ∈ (dragMoveNode s id p).nodes.find? (fun n => n.id == e.sourceNodeId),
      ∀ tn2 ∈ (dragMoveNode s id p).nodes.find? (fun n => n.id == e.targetNodeId),
        e.sourceAnchor = getNodeAnchor sn2 tn2 ∧
        e.targetAnchor = getNodeAnchor tn2 sn2) := by
  constructor
  · exact (addEdge_found_eval s newId src tgt sn tn hs ht hdup).1
  · have hconnodup :
        (((updateNode s id { position := some p }).edges.filter
            (fun e => e.sourceNodeId == id || e.targetNodeId == id)).map
          Edge.id).Nodup :=
      hnodup.sublist
        ((List.filter_sublist
          (updateNode s id { position := some p }).edges).map Edge.id)
    have hmatch : ∀ t ∈ (updateNode s id { position := some p }).edges.filter
          (fun e => e.sourceNodeId == id || e.targetNodeId == id),
        ∀ g ∈ (updateNode s id { position := some p }).edges, g.id = t.id →
          g.sourceNodeId = t.sourceNodeId ∧ g.targetNodeId = t.targetNodeId := by
      intro t ht2 g hg hid2
      have ht3 : t ∈ (updateNode s id { position := some p }).edges :=
        List.mem_of_mem_filter ht2
      have hgt : g = t := List.inj_on_of_nodup_map hnodup hg ht3 hid2
      rw [hgt]
      exact ⟨rfl, rfl⟩
    obtain ⟨hNn, hNe⟩ := foldl_dragStep_char
      (updateNode s id { position := some p }).nodes
      ((updateNode s id { position := some p }).edges.filter
        (fun e => e.sourceNodeId == id || e.targetNodeId == id))
      (updateNode s id { position := some p }) rfl hconnodup hmatch
    intro e he hinc sn2 hsn2 tn2 htn2
    have he' : e ∈ (updateNode s id { position := some p }).edges.map
        (fun g => if (((updateNode s id { position := some p }).edges.filter
              (fun e => e.sourceNodeId == id || e.targetNodeId == id)).map
            Edge.id).contains g.id
          then reanchor (updateNode s id { position := some p }).nodes g else g) := by
      rw [← hNe]
      exact he
    rw [List.mem_map] at he'
    obtain ⟨g, hg, hge⟩ := he'
    have hsn2' : (updateNode s id { position := some p }).nodes.find?
        (fun n => n.id == e.sourceNodeId) = some sn2 := by
      rw [← hNn]
      exact Option.mem_def.mp hsn2
    have htn2' : (updateNode s id { position := some p }).nodes.find?
        (fun n => n.id == e.targetNodeId) = some tn2 := by
      rw [← hNn]
      exact Option.mem_def.mp htn2
    by_cases hc : ((((updateNode s id { position := some p }).edges.filter
          (fun e => e.sourceNodeId == id || e.targetNodeId == id)).map
        Edge.id).contains g.id) = true
    · rw [if_pos hc] at hge
      subst hge
      simp only [reanchor_sourceNodeId] at hsn2'
      simp only [reanchor_targetNodeId] at htn2'
      unfold reanchor
      rw [hsn2', htn2']
      exact ⟨rfl, rfl⟩
    · rw [if_neg hc] at hge
      subst hge
      exfalso
      apply hc
      have hgconn : g ∈ (updateNode s id { position := some p }).edges.filter
          (fun e => e.sourceNodeId == id || e.targetNodeId == id) := by
        rw [List.mem_filter]
        refine ⟨hg, ?_⟩
        rcases hinc with h | h <;> simp [h]
      have hmemid : g.id ∈ ((updateNode s id { position := some p }).edges.filter
          (fun e => e.sourceNodeId == id || e.targetNodeId == id)).map Edge.id :=
        List.mem_map_of_mem Edge.id hgconn
      simpa using hmemid

/-- Rectangle node "c" at (0, 300) for the C1 witness. -/
def C1nodeC : Node :=
  ⟨"c", NodeType.rectangle, ⟨0, 300⟩, ⟨120, 80⟩, "New Node", "#ffffff", "#666666", 2⟩

/-- An a→b edge with stale anchors, for the C1 witness. -/
def C1wedge : Edge := ⟨"e", "a", "b", ⟨0, 0⟩, ⟨0, 0⟩⟩

/-- Witness state for C1: nodes a, b, c and one a→b edge. -/
def C1wstate : CanvasState :=
  { initialState with nodes := [C1nodeA, C1nodeB, C1nodeC], edges := [C1wedge] }

/-- Witness for C1: the amended statement applied at the concrete
three-node state — `addEdge` from "a" to "c" appends a center-anchored
edge, and dragging "a" (to its own position) re-anchors the incident
a→b edge with `getNodeAnchor` on both endpoint nodes. -/
theorem C1_anchor_semantics_witness :
    (addEdge C1wstate "f" "a" "c").edges
      = C1wstate.edges
        ++ [⟨"f", "a", "c", getNodeCenter C1nodeA, getNodeCenter C1nodeC⟩] ∧
    (⟨"e", "a", "b", getNodeAnchor C1nodeA C1nodeB,
        getNodeAnchor C1nodeB C1nodeA⟩ : Edge).sourceAnchor
      = getNodeAnchor C1nodeA C1nodeB ∧
    (⟨"e", "a", "b", getNodeAnchor C1nodeA C1nodeB,
        getNodeAnchor C1nodeB C1nodeA⟩ : Edge).targetAnchor
      = getNodeAnchor C1nodeB C1nodeA := by
  have h := C1_anchor_semantics C1wstate "f" "a" "c" "a" ⟨0, 0⟩ C1nodeA C1nodeC
    rfl rfl rfl (by simp [C1wstate, initialState, C1wedge])
  have hmem : (⟨"e", "a", "b", getNodeAnchor C1nodeA C1nodeB,
      getNodeAnchor C1nodeB C1nodeA⟩ : Edge)
      ∈ (dragMoveNode C1wstate "a" ⟨0, 0⟩).edges := by
    have heq : (dragMoveNode C1wstate "a" ⟨0, 0⟩).edges
        = [⟨"e", "a", "b", getNodeAnchor C1nodeA C1nodeB,
            getNodeAnchor C1nodeB C1nodeA⟩] := rfl
    rw [heq]
    exact List.mem_singleton.mpr rfl
  have h2 := h.2 _ hmem (Or.inl rfl) C1nodeA (Option.mem_def.mpr rfl)
    C1nodeB (Option.mem_def.mpr rfl)
  exact ⟨h.1, h2.1, h2.2⟩

end Flowly
